import Mathlib

/-!
# Verification of the saleor flat-tax plugin core

Shallow embedding of `saleor_flat_tax_plugin/__init__.py` and
`saleor_flat_tax_plugin/plugin.py`: decimal amounts are rationals,
Python `Decimal.quantize` (default context rounding, half-even) is
`quantizeAt`, dictionaries are association lists, and fallible code
(Python exceptions) returns `Option`.
-/

set_option maxRecDepth 2048

namespace FlatTax

attribute [local semireducible] Rat.mul Rat.add Rat.sub Rat.inv Rat.ofScientific

/-- Round a rational to the nearest integer, ties to even (the rounding
of Python `Decimal.quantize` under the default context).  Written on the
numerator and denominator of the reduced fraction so that the whole
computation is integer arithmetic: `q = ⌊x⌋` (floor division), `rem` the
nonneg remainder, and `rem/den` compared with `1/2` via `2*rem ? den`. -/
def roundHalfEven (x : ℚ) : ℤ :=
  let n := x.num
  let d : ℤ := (x.den : ℤ)
  let q := Int.fdiv n d
  let rem := n - q * d
  if 2 * rem < d then q
  else if d < 2 * rem then q + 1
  else if q % 2 = 0 then q else q + 1

/-- Model of `Decimal.quantize` to `e` fractional digits, half-even.
The power is computed in `ℕ` and cast, to keep it kernel-computable. -/
def quantizeAt (e : ℕ) (x : ℚ) : ℚ :=
  (roundHalfEven (x * ((10 ^ e : ℕ) : ℚ)) : ℚ) / ((10 ^ e : ℕ) : ℚ)

/-- The fixed 4-digit internal precision of `flat_tax`
(`precision=Decimal(".0001")` in `__init__.py`). -/
def quantize4 (x : ℚ) : ℚ := quantizeAt 4 x

/-- Model of `prices.Money`: a decimal amount with a currency code. -/
structure Money where
  amount : ℚ
  currency : String
deriving DecidableEq

/-- Model of `prices.TaxedMoney`: a net/gross pair. -/
structure TaxedMoney where
  net : Money
  gross : Money
deriving DecidableEq

/-- Model of `prices.MoneyRange`. -/
structure MoneyRange where
  start : Money
  stop : Money
deriving DecidableEq

/-- Model of `prices.TaxedMoneyRange`. -/
structure TaxedMoneyRange where
  start : TaxedMoney
  stop : TaxedMoney
deriving DecidableEq

/-- The four money shapes accepted by `flat_tax` / `apply_tax_to_price`. -/
inductive PriceBase where
  | money : Money → PriceBase
  | moneyRange : MoneyRange → PriceBase
  | taxedMoney : TaxedMoney → PriceBase
  | taxedMoneyRange : TaxedMoneyRange → PriceBase
deriving DecidableEq

/-- Result shape of `flat_tax`: a `TaxedMoney` or a `TaxedMoneyRange`. -/
inductive TaxedResult where
  | taxedMoney : TaxedMoney → TaxedResult
  | taxedMoneyRange : TaxedMoneyRange → TaxedResult
deriving DecidableEq

/-- Embedding of `flat_tax` (`__init__.py` lines 64-70), `Money` branch:
`keep_gross` divides the amount by `1 + tax_rate` for the net,
otherwise multiplies for the gross; the computed side is quantized
to 4 digits. -/
def flatTaxOnMoney (base : Money) (taxRate : ℚ) (keepGross : Bool) : TaxedMoney :=
  let fraction := 1 + taxRate
  if keepGross then
    { net := { amount := quantize4 (base.amount / fraction), currency := base.currency },
      gross := base }
  else
    { net := base,
      gross := { amount := quantize4 (base.amount * fraction), currency := base.currency } }

/-- Embedding of `flat_tax` (`__init__.py` lines 57-63), `TaxedMoney` branch.
Note: the code computes `base.net / fraction` when `keep_gross` and
`base.gross * fraction` otherwise. -/
def flatTaxOnTaxedMoney (base : TaxedMoney) (taxRate : ℚ) (keepGross : Bool) : TaxedMoney :=
  let fraction := 1 + taxRate
  if keepGross then
    { net := { amount := quantize4 (base.net.amount / fraction), currency := base.net.currency },
      gross := base.gross }
  else
    { net := base.net,
      gross := { amount := quantize4 (base.gross.amount * fraction),
                 currency := base.gross.currency } }

/-- Embedding of `flat_tax` (`__init__.py` lines 50-71): dispatch over the four shapes;
ranges recurse element-wise on start/stop. -/
def flat_tax (base : PriceBase) (taxRate : ℚ) (keepGross : Bool) : TaxedResult :=
  match base with
  | .moneyRange r =>
      .taxedMoneyRange ⟨flatTaxOnMoney r.start taxRate keepGross,
                        flatTaxOnMoney r.stop taxRate keepGross⟩
  | .taxedMoneyRange r =>
      .taxedMoneyRange ⟨flatTaxOnTaxedMoney r.start taxRate keepGross,
                        flatTaxOnTaxedMoney r.stop taxRate keepGross⟩
  | .taxedMoney t => .taxedMoney (flatTaxOnTaxedMoney t taxRate keepGross)
  | .money m => .taxedMoney (flatTaxOnMoney m taxRate keepGross)

/-- Spec §8 round trip: apply the converter with `keepGross=false`,
then again with `keepGross=true`, on a `Money` value. -/
def netGrossRoundTrip (m : Money) (taxRate : ℚ) : TaxedResult :=
  match flat_tax (.money m) taxRate false with
  | .taxedMoney t => flat_tax (.taxedMoney t) taxRate true
  | .taxedMoneyRange r => flat_tax (.taxedMoneyRange r) taxRate true

/-- Constant `DEFAULT_TAX_RATE_NAME` in `__init__.py`. -/
def DEFAULT_TAX_RATE_NAME : String := "standard"

/-- The `flat_taxes` configuration: rate name to percentage
(a Python dict, embedded as an association list with distinct keys). -/
abbrev RateTable := List (String × ℚ)

/-- Python truthiness of an optional string (`None` and `""` are falsy). -/
def strTruthy : Option String → Bool
  | none => false
  | some s => !s.isEmpty

/-- Python truthiness of the `taxes` argument (`None` and `{}` are falsy). -/
def taxesFalsy : Option RateTable → Bool
  | none => true
  | some t => t.isEmpty

/-- Measure for the mutual recursion between `apply_tax_to_price` and
`_convert_to_naive_taxed_money` (a money range recurses into its endpoints). -/
def PriceBase.rangeSize : PriceBase → ℕ
  | .moneyRange _ => 1
  | _ => 0

mutual

/-- Embedding of `_convert_to_naive_taxed_money` (`__init__.py` lines 17-32): a `Money`
becomes `TaxedMoney(net=base, gross=base)`; a `MoneyRange` recurses through
`apply_tax_to_price` on its endpoints; taxed shapes pass through.
(The Python `TypeError` for unknown shapes is absent because `PriceBase`
is exactly the four accepted shapes.) -/
def convert_to_naive_taxed_money (base : PriceBase) (taxes : Option RateTable)
    (rateName : Option String) (keepGross : Bool) : Option TaxedResult :=
  match base with
  | .money m => some (.taxedMoney ⟨m, m⟩)
  | .moneyRange r =>
      match apply_tax_to_price keepGross taxes rateName (.money r.start),
            apply_tax_to_price keepGross taxes rateName (.money r.stop) with
      | some (.taxedMoney lo), some (.taxedMoney hi) => some (.taxedMoneyRange ⟨lo, hi⟩)
      | _, _ => none
  | .taxedMoney t => some (.taxedMoney t)
  | .taxedMoneyRange r => some (.taxedMoneyRange r)
termination_by (PriceBase.rangeSize base, 0)
decreasing_by all_goals exact Prod.Lex.left _ _ (by simp [PriceBase.rangeSize])

/-- Embedding of `apply_tax_to_price` (`__init__.py` lines 35-46): falsy taxes or rate
name coerce naively; otherwise use the entry for `rate_name` when present,
else the `DEFAULT_TAX_RATE_NAME` entry (`KeyError`, i.e. `none`, when that
is also missing), and apply its `flat_tax` converter with the percentage
divided by 100 (as built by `get_tax_for_rate`).  `keep_gross` models the
host flag `include_taxes_in_prices()`. -/
def apply_tax_to_price (keepGross : Bool) (taxes : Option RateTable)
    (rateName : Option String) (base : PriceBase) : Option TaxedResult :=
  if taxesFalsy taxes || !strTruthy rateName then
    convert_to_naive_taxed_money base taxes rateName keepGross
  else
    match (taxes.getD []).lookup (rateName.getD "") with
    | some v => some (flat_tax base (v / 100) keepGross)
    | none =>
        match (taxes.getD []).lookup DEFAULT_TAX_RATE_NAME with
        | some v => some (flat_tax base (v / 100) keepGross)
        | none => none
termination_by (PriceBase.rangeSize base, 1)
decreasing_by all_goals exact Prod.Lex.right _ (by omega)

end

/-- Model of `saleor.order.interface.OrderTaxedPricesData`: the composite
order-prices result inspected by `_skip_plugin`. -/
structure OrderTaxedPricesData where
  undiscountedPrice : TaxedMoney
  priceWithDiscounts : TaxedMoney
deriving DecidableEq

/-- The shapes a previous pipeline stage can hand to `_skip_plugin`
(`plugin.py` lines 101-109): `TaxedMoney`, `TaxedMoneyRange`, a plain
`Decimal`, `OrderTaxedPricesData`, or `None` (as passed by
`get_taxes_for_order` to `update_taxes_for_order_lines`). -/
inductive PreviousValue where
  | taxedMoney : TaxedMoney → PreviousValue
  | taxedMoneyRange : TaxedMoneyRange → PreviousValue
  | dec : ℚ → PreviousValue
  | orderPrices : OrderTaxedPricesData → PreviousValue
  | noneValue : PreviousValue
deriving DecidableEq

/-- Embedding of `FlatTaxPlugin._skip_plugin` (`plugin.py` lines 101-129): `True` when
the plugin is inactive; for a `TaxedMoneyRange`, `True` iff both endpoints
have net different from gross; for a `TaxedMoney`, iff net differs from
gross; for `OrderTaxedPricesData`, iff `price_with_discounts` has net
different from gross; `False` for anything else. -/
def skipPlugin (active : Bool) (previousValue : PreviousValue) : Bool :=
  if !active then true
  else
    match previousValue with
    | .taxedMoneyRange r =>
        decide (r.start.net ≠ r.start.gross) && decide (r.stop.net ≠ r.stop.gross)
    | .taxedMoney t => decide (t.net ≠ t.gross)
    | .orderPrices p => decide (p.priceWithDiscounts.net ≠ p.priceWithDiscounts.gross)
    | _ => false

/-- The generic gate every pipeline method starts with
(e.g. `calculate_checkout_total`, `plugin.py` lines 180-181):
return the previous value unchanged when `_skip_plugin` says so. -/
def gatedStage (active : Bool) (previousValue : PreviousValue)
    (compute : PreviousValue → PreviousValue) : PreviousValue :=
  if skipPlugin active previousValue then previousValue else compute previousValue

/-- Model of `saleor.product.models.ProductType`, reduced to the metadata the
plugin reads: the stored `flattax.code` value, if any. -/
structure ProductType where
  metaCode : Option String
deriving DecidableEq

/-- Model of `Product`, reduced to what the plugin reads: `charge_taxes`, the
product-level `flattax.code` metadata, and the owning product type. -/
structure Product where
  chargeTaxes : Bool
  metaCode : Option String
  productType : ProductType
deriving DecidableEq

/-- Model of `obj.get_value_from_metadata(key, default)`. -/
def getValueFromMetadata (stored : Option String) (default : Option String) : Option String :=
  match stored with
  | some s => some s
  | none => default

/-- Embedding of `__get_tax_code_from_object_meta` (`plugin.py` lines 531-548) applied
to a product: default `None`. -/
def productTaxCode (p : Product) : Option String :=
  getValueFromMetadata p.metaCode none

/-- Embedding of `__get_tax_code_from_object_meta` applied to a product type:
default `DEFAULT_TAX_RATE_NAME`. -/
def productTypeTaxCode (p : Product) : Option String :=
  getValueFromMetadata p.productType.metaCode (some DEFAULT_TAX_RATE_NAME)

/-- The rate-name resolution in `__get_tax_data_for_product`
(`plugin.py` lines 499-503): product-level code `or` product-type code. -/
def resolveRateName (p : Product) : Option String :=
  if strTruthy (productTaxCode p) then productTaxCode p else productTypeTaxCode p

/-- Embedding of `__get_tax_data_for_product` (`plugin.py` lines 495-504): the rate
table only when the product charges taxes, plus the resolved rate name. -/
def getTaxDataForProduct (flatTaxes : RateTable) (p : Product) :
    Option RateTable × Option String :=
  (if p.chargeTaxes then some flatTaxes else none, resolveRateName p)

/-- Embedding of `FlatTaxPlugin._get_tax_rate` (`plugin.py` lines 416-426).  Returns
`some previousValue` when skipping or when taxes/rate name are falsy;
`taxes.get(tax_rate) or taxes.get(DEFAULT_TAX_RATE_NAME)` with the value
divided by 100; `none` models the `TypeError` when both lookups miss. -/
def getTaxRate (active : Bool) (flatTaxes : RateTable) (p : Product)
    (previousValue : ℚ) : Option ℚ :=
  if skipPlugin active (.dec previousValue) then some previousValue
  else
    let data := getTaxDataForProduct flatTaxes p
    if taxesFalsy data.1 || !strTruthy data.2 then some previousValue
    else
      match (data.1.getD []).lookup (data.2.getD "") with
      | some v => some (v / 100)
      | none =>
          match (data.1.getD []).lookup DEFAULT_TAX_RATE_NAME with
          | some v => some (v / 100)
          | none => none

/-- An order line as read by `update_taxes_for_order_lines`:
`base_unit_price.amount`, `quantity`, and whether `line.variant` is set. -/
structure OrderLine where
  baseUnitPrice : ℚ
  quantity : ℕ
  hasVariant : Bool
deriving DecidableEq

/-- Amount of `line.base_unit_price * line.quantity` (`plugin.py` line 273). -/
def lineTotalPrice (l : OrderLine) : ℚ := l.baseUnitPrice * (l.quantity : ℚ)

/-- Embedding of `order_total_price` (`plugin.py` lines 263-265): sum over all lines. -/
def orderTotalPrice (lines : List OrderLine) : ℚ :=
  (lines.map lineTotalPrice).sum

/-- The outcome of the loop body for one line: the discount amount applied
to it and the resulting `price_with_discounts` amount.  `none` means the
line was skipped (`if not variant: continue`). -/
structure LineResult where
  discountAmount : ℚ
  priceWithDiscounts : ℚ
deriving DecidableEq

/-- Embedding of `discount_amount` for one line (`plugin.py` lines 275-287): the last
line (`line is lines[-1]`) gets the remaining discount, every other line
its share proportional to line total over order total, quantized. -/
def lineDiscountAmount (frac : ℕ) (totalDiscount orderTotal totalLineDiscounts : ℚ)
    (i lastIdx : ℕ) (l : OrderLine) : ℚ :=
  if i = lastIdx then totalDiscount - totalLineDiscounts
  else quantizeAt frac (lineTotalPrice l / orderTotal * totalDiscount)

/-- Embedding of `price_with_discounts` for one line (`plugin.py` lines 288-295):
`max(quantize_price((line_total_price - discount) / quantity), 0)`. -/
def linePriceWithDiscounts (frac : ℕ) (d : ℚ) (l : OrderLine) : ℚ :=
  max (quantizeAt frac ((lineTotalPrice l - d) / (l.quantity : ℚ))) 0

/-- The loop of `update_taxes_for_order_lines` (`plugin.py` lines
267-297): `i` is the current index, `lastIdx` the index of `lines[-1]`,
and `totalLineDiscounts` the running sum of applied discounts.  A line
without a variant is skipped (`continue`); when `total_discount_amount`
is truthy (nonzero) a per-line discount and clamped price are computed,
otherwise `price_with_discounts` stays `base_unit_price`. -/
def prorationLoop (frac : ℕ) (totalDiscount orderTotal : ℚ) (lastIdx : ℕ) :
    ℕ → ℚ → List OrderLine → List (Option LineResult)
  | _, _, [] => []
  | i, totalLineDiscounts, l :: rest =>
    if l.hasVariant then
      if totalDiscount ≠ 0 then
        some ⟨lineDiscountAmount frac totalDiscount orderTotal totalLineDiscounts i lastIdx l,
              linePriceWithDiscounts frac
                (lineDiscountAmount frac totalDiscount orderTotal totalLineDiscounts i lastIdx l)
                l⟩
          :: prorationLoop frac totalDiscount orderTotal lastIdx (i + 1)
              (totalLineDiscounts
                + lineDiscountAmount frac totalDiscount orderTotal totalLineDiscounts i lastIdx l)
              rest
      else
        some ⟨0, l.baseUnitPrice⟩ :: prorationLoop frac totalDiscount orderTotal lastIdx
          (i + 1) totalLineDiscounts rest
    else
      none :: prorationLoop frac totalDiscount orderTotal lastIdx
        (i + 1) totalLineDiscounts rest

/-- The proration pass of `update_taxes_for_order_lines`
(`plugin.py` lines 256-301), after the skip gate. -/
def prorateOrderLines (frac : ℕ) (totalDiscount : ℚ) (lines : List OrderLine) :
    List (Option LineResult) :=
  prorationLoop frac totalDiscount (orderTotalPrice lines) (lines.length - 1) 0 0 lines

/-- Result of the gated `update_taxes_for_order_lines`: either the previous
value passed through, or the processed lines. -/
inductive StageResult where
  | previous : PreviousValue → StageResult
  | computed : List (Option LineResult) → StageResult
deriving DecidableEq

/-- Embedding of `FlatTaxPlugin.update_taxes_for_order_lines` (`plugin.py` lines
247-301) with its skip gate (lines 253-254). -/
def update_taxes_for_order_lines (active : Bool) (previousValue : PreviousValue)
    (frac : ℕ) (totalDiscount : ℚ) (lines : List OrderLine) : StageResult :=
  if skipPlugin active previousValue then .previous previousValue
  else .computed (prorateOrderLines frac totalDiscount lines)

/-- The sum of the per-line discount amounts actually applied
(`total_line_discounts` at the end of the loop). -/
def appliedDiscountSum (results : List (Option LineResult)) : ℚ :=
  (results.map (fun r => match r with | some lr => lr.discountAmount | none => 0)).sum

/-- Embedding of `_calculate_discount_for_last_element` (`__init__.py` lines 176-193):
total discount minus the sum of the quantized shares of the other lines. -/
def calculate_discount_for_last_element (frac : ℕ) (linesTotalPrices : List ℚ)
    (totalPrice totalDiscountAmount : ℚ) : ℚ :=
  totalDiscountAmount -
    (linesTotalPrices.map
      (fun t => quantizeAt frac (t / totalPrice * totalDiscountAmount))).sum

/-- Sum of the quantized proportional shares of the lines that have a
variant (used to describe the applied total when the last line has none). -/
def quantizedShareSum (frac : ℕ) (totalDiscount orderTotal : ℚ)
    (lines : List OrderLine) : ℚ :=
  ((lines.filter (fun l => l.hasVariant)).map
    (fun l => quantizeAt frac (lineTotalPrice l / orderTotal * totalDiscount))).sum

/-! ## Theorems -/

/-- C7: for every Money input `m` and non-negative tax fraction `r` with
`keepGross=false`, `flat_tax` returns `TaxedMoney` with net equal to `m`
unchanged and gross equal to `m` multiplied by `1 + r`, quantized to four
decimal digits; concretely `flat_tax(Money(100, "USD"), 0.10, false)`
equals `TaxedMoney(net=100, gross=110)` (see the witness). -/
theorem flat_tax_money_keep_net (m : Money) (r : ℚ) (hr : 0 ≤ r) :
    flat_tax (.money m) r false
      = .taxedMoney ⟨m, ⟨quantize4 (m.amount * (1 + r)), m.currency⟩⟩ := by
  simp [flat_tax, flatTaxOnMoney]

/-- Witness for C7 at `Money(100, "USD")`, `r = 1/10`. -/
theorem flat_tax_money_keep_net_witness :
    (0 : ℚ) ≤ 1/10 ∧
    flat_tax (.money ⟨100, "USD"⟩) (1/10) false
      = .taxedMoney ⟨⟨100, "USD"⟩, ⟨110, "USD"⟩⟩ :=
  ⟨by norm_num,
   (flat_tax_money_keep_net ⟨100, "USD"⟩ (1/10) (by norm_num)).trans
     (by decide)⟩

/-- C2 counterexample: the claim says
`applyFlatTax(TaxedMoney(net=100, gross=110), 0.10, keepGross=true)` has
net recomputed from the gross as `110/1.10 = 100.0000`; the code instead
divides the existing net, returning net `90.9091` with gross unchanged, so
the result differs from the claimed one. -/
theorem flat_tax_taxed_keep_gross_cex :
    flat_tax (.taxedMoney ⟨⟨100, "USD"⟩, ⟨110, "USD"⟩⟩) (1/10) true
        = .taxedMoney ⟨⟨909091/10000, "USD"⟩, ⟨110, "USD"⟩⟩ ∧
    quantize4 (110 / (1 + 1/10)) = 100 ∧
    flat_tax (.taxedMoney ⟨⟨100, "USD"⟩, ⟨110, "USD"⟩⟩) (1/10) true
        ≠ .taxedMoney ⟨⟨100, "USD"⟩, ⟨110, "USD"⟩⟩ := by
  refine ⟨?_, ?_, ?_⟩ <;> decide

/-- C2 as amended: for every `TaxedMoney` input `t` and non-negative tax
fraction `r`, `flat_tax(t, r, keepGross=true)` returns gross equal to
`t.gross` unchanged and net equal to `t.net` (not `t.gross`) divided by
`1 + r`, quantized to four decimal digits. -/
theorem flat_tax_taxed_keep_gross (t : TaxedMoney) (r : ℚ) (hr : 0 ≤ r) :
    flat_tax (.taxedMoney t) r true
      = .taxedMoney ⟨⟨quantize4 (t.net.amount / (1 + r)), t.net.currency⟩, t.gross⟩ := by
  simp [flat_tax, flatTaxOnTaxedMoney]

/-- Witness for the amended C2 at `TaxedMoney(net=100, gross=110)`,
`r = 1/10`: net becomes `100/1.10` quantized, i.e. `90.9091`. -/
theorem flat_tax_taxed_keep_gross_witness :
    (0 : ℚ) ≤ 1/10 ∧
    flat_tax (.taxedMoney ⟨⟨100, "USD"⟩, ⟨110, "USD"⟩⟩) (1/10) true
      = .taxedMoney ⟨⟨909091/10000, "USD"⟩, ⟨110, "USD"⟩⟩ :=
  ⟨by norm_num,
   (flat_tax_taxed_keep_gross ⟨⟨100, "USD"⟩, ⟨110, "USD"⟩⟩ (1/10) (by norm_num)).trans
     (by decide)⟩

/-- C3 counterexample: the net/gross inversion fails.  For
`m = Money(100, "USD")` and `r = 0.10`, the round trip (apply with
`keepGross=false`, then with `keepGross=true`) returns net `90.9091`, which
is not within `0.0001` of `100`: the second application divides the
unchanged net by `1 + r` instead of the gross. -/
theorem net_gross_round_trip_cex :
    netGrossRoundTrip ⟨100, "USD"⟩ (1/10)
        = .taxedMoney ⟨⟨909091/10000, "USD"⟩, ⟨110, "USD"⟩⟩ ∧
    ¬ ((100 : ℚ) - 1/10000 ≤ 909091/10000 ∧ (909091/10000 : ℚ) ≤ 100 + 1/10000) := by
  constructor
  · simp only [netGrossRoundTrip, flat_tax, flatTaxOnMoney, flatTaxOnTaxedMoney]
    decide
  · norm_num

/-- C3 as amended: for every Money `m` and rate `r ≥ 0`, the round trip
yields net `quantize4(m / (1+r))` (and gross `quantize4(m × (1+r))`), not
`m` itself; the net equals `m` within tolerance only in special cases such
as `r = 0`. -/
theorem net_gross_round_trip_eq (m : Money) (r : ℚ) (hr : 0 ≤ r) :
    netGrossRoundTrip m r
      = .taxedMoney ⟨⟨quantize4 (m.amount / (1 + r)), m.currency⟩,
                     ⟨quantize4 (m.amount * (1 + r)), m.currency⟩⟩ := by
  simp [netGrossRoundTrip, flat_tax, flatTaxOnMoney, flatTaxOnTaxedMoney]

/-- Witness for the amended C3 at `Money(100, "USD")`, `r = 1/10`. -/
theorem net_gross_round_trip_eq_witness :
    (0 : ℚ) ≤ 1/10 ∧
    netGrossRoundTrip ⟨100, "USD"⟩ (1/10)
      = .taxedMoney ⟨⟨909091/10000, "USD"⟩, ⟨110, "USD"⟩⟩ :=
  ⟨by norm_num,
   (net_gross_round_trip_eq ⟨100, "USD"⟩ (1/10) (by norm_num)).trans
     (by decide)⟩

/-- C4: with the plugin active, `_skip_plugin` returns true for a
`TaxedMoney` iff its net differs from its gross; for a `TaxedMoneyRange`
iff both endpoints have net different from gross; for an
`OrderTaxedPricesData` iff its `price_with_discounts` has net different
from gross; and false for any other value (a plain decimal, or `None`). -/
theorem skip_plugin_spec :
    (∀ t : TaxedMoney, skipPlugin true (.taxedMoney t) = true ↔ t.net ≠ t.gross) ∧
    (∀ r : TaxedMoneyRange, skipPlugin true (.taxedMoneyRange r) = true ↔
        (r.start.net ≠ r.start.gross ∧ r.stop.net ≠ r.stop.gross)) ∧
    (∀ p : OrderTaxedPricesData, skipPlugin true (.orderPrices p) = true ↔
        p.priceWithDiscounts.net ≠ p.priceWithDiscounts.gross) ∧
    (∀ d : ℚ, skipPlugin true (.dec d) = false) ∧
    skipPlugin true .noneValue = false := by
  refine ⟨fun t => ?_, fun r => ?_, fun p => ?_, fun d => ?_, ?_⟩ <;>
    simp [skipPlugin]

/-- C9: when the plugin is inactive, `_skip_plugin` returns true for every
previous value of any shape, so every pipeline operation gated by it
(modelled by `gatedStage` and by `update_taxes_for_order_lines`) returns
the previous value unchanged. -/
theorem inactive_skip_identity :
    (∀ v : PreviousValue, skipPlugin false v = true) ∧
    (∀ (v : PreviousValue) (compute : PreviousValue → PreviousValue),
        gatedStage false v compute = v) ∧
    (∀ (v : PreviousValue) (frac : ℕ) (totalDiscount : ℚ) (lines : List OrderLine),
        update_taxes_for_order_lines false v frac totalDiscount lines = .previous v) := by
  refine ⟨fun v => ?_, fun v compute => ?_, fun v frac totalDiscount lines => ?_⟩ <;>
    simp [skipPlugin, gatedStage, update_taxes_for_order_lines]

/-! ### Proration lemmas -/

theorem appliedDiscountSum_nil : appliedDiscountSum [] = 0 := rfl

theorem appliedDiscountSum_cons (r : Option LineResult) (rs : List (Option LineResult)) :
    appliedDiscountSum (r :: rs)
      = (match r with | some lr => lr.discountAmount | none => 0) + appliedDiscountSum rs := by
  simp [appliedDiscountSum]

/-- With a zero total discount the loop applies no discount to any line. -/
theorem prorationLoop_sum_zero (frac : ℕ) (orderTotal : ℚ) (lastIdx : ℕ) :
    ∀ (rest : List OrderLine) (i : ℕ) (acc : ℚ),
      appliedDiscountSum (prorationLoop frac 0 orderTotal lastIdx i acc rest) = 0
  | [], _, _ => rfl
  | l :: rest, i, acc => by
      by_cases hv : l.hasVariant <;>
        simp [prorationLoop, hv, appliedDiscountSum_cons,
          prorationLoop_sum_zero frac orderTotal lastIdx rest]

/-- Loop invariant for the exact-sum property: on a nonempty suffix that
ends at the last index and whose lines all have variants, the applied
discounts sum to the remaining discount `totalDiscount - acc`. -/
theorem prorationLoop_sum (frac : ℕ) (totalDiscount orderTotal : ℚ)
    (hD : totalDiscount ≠ 0) (lastIdx : ℕ) :
    ∀ (rest : List OrderLine) (i : ℕ) (acc : ℚ),
      rest ≠ [] → i + rest.length = lastIdx + 1 →
      (∀ l ∈ rest, l.hasVariant = true) →
      appliedDiscountSum (prorationLoop frac totalDiscount orderTotal lastIdx i acc rest)
        = totalDiscount - acc
  | [], _, _, hne, _, _ => absurd rfl hne
  | l :: rest, i, acc, _, hlen, hvar => by
      have hv : l.hasVariant = true := hvar l (List.mem_cons_self l rest)
      match rest, hlen with
      | [], hlen =>
          have hi : i = lastIdx := by simpa using hlen
          simp [prorationLoop, hv, hD, hi, lineDiscountAmount,
            appliedDiscountSum_cons, appliedDiscountSum_nil]
      | l2 :: rest2, hlen =>
          have hi : i ≠ lastIdx := by
            simp only [List.length_cons] at hlen
            omega
          have hrec := prorationLoop_sum frac totalDiscount orderTotal hD lastIdx
            (l2 :: rest2) (i + 1)
            (acc + lineDiscountAmount frac totalDiscount orderTotal acc i lastIdx l)
            (List.cons_ne_nil l2 rest2)
            (by simp only [List.length_cons] at hlen ⊢; omega)
            (fun x hx => hvar x (List.mem_cons_of_mem l hx))
          rw [prorationLoop, if_pos hv, if_pos hD, appliedDiscountSum_cons, hrec,
            lineDiscountAmount, if_neg hi]
          ring

/-- C1: for every list of order lines (each with a variant) with positive
line total prices and every total discount not exceeding the sum of line
totals, the per-line discount amounts produced by the proration (quantized
proportional shares for every line but the last, exact remainder for the
last) sum to the total discount exactly, with zero residual; likewise for
the checkout-side `_calculate_discount_for_last_element`, the last-line
remainder plus the other lines' quantized shares is the total discount. -/
theorem proration_exact_sum (frac : ℕ) (totalDiscount : ℚ) (lines : List OrderLine)
    (hne : lines ≠ [])
    (hvar : ∀ l ∈ lines, l.hasVariant = true)
    (hpos : ∀ l ∈ lines, 0 < lineTotalPrice l)
    (hle : totalDiscount ≤ orderTotalPrice lines) :
    appliedDiscountSum (prorateOrderLines frac totalDiscount lines) = totalDiscount ∧
    ∀ (linesTotalPrices : List ℚ) (totalPrice : ℚ),
      calculate_discount_for_last_element frac linesTotalPrices totalPrice totalDiscount
        + (linesTotalPrices.map
            (fun t => quantizeAt frac (t / totalPrice * totalDiscount))).sum
      = totalDiscount := by
  constructor
  · rcases eq_or_ne totalDiscount 0 with h0 | h0
    · subst h0
      exact prorationLoop_sum_zero frac (orderTotalPrice lines) (lines.length - 1) lines 0 0
    · have hlen : 0 + lines.length = (lines.length - 1) + 1 := by
        have := List.length_pos.mpr hne
        omega
      have := prorationLoop_sum frac totalDiscount (orderTotalPrice lines) h0
        (lines.length - 1) lines 0 0 hne hlen hvar
      rw [prorateOrderLines, this]
      ring
  · intro linesTotalPrices totalPrice
    rw [calculate_discount_for_last_element]
    ring

/-- Witness for C1 at the spec scenario: three lines with totals 30, 30,
40 (quantity 1 each) and total discount 10 (2-digit currency); the applied
discounts are 3.00, 3.00 and 4.00 and sum to 10 exactly. -/
theorem proration_exact_sum_witness :
    (([⟨30, 1, true⟩, ⟨30, 1, true⟩, ⟨40, 1, true⟩] : List OrderLine) ≠ []) ∧
    (10 : ℚ) ≤ orderTotalPrice [⟨30, 1, true⟩, ⟨30, 1, true⟩, ⟨40, 1, true⟩] ∧
    appliedDiscountSum (prorateOrderLines 2 10 [⟨30, 1, true⟩, ⟨30, 1, true⟩, ⟨40, 1, true⟩])
      = 10 ∧
    calculate_discount_for_last_element 2 [30, 30] 100 10
        + ([30, 30].map (fun t => quantizeAt 2 (t / 100 * 10))).sum
      = 10 :=
  ⟨by decide, by decide,
   (proration_exact_sum 2 10 [⟨30, 1, true⟩, ⟨30, 1, true⟩, ⟨40, 1, true⟩]
      (by decide) (by decide) (by decide) (by decide)).1,
   (proration_exact_sum 2 10 [⟨30, 1, true⟩, ⟨30, 1, true⟩, ⟨40, 1, true⟩]
      (by decide) (by decide) (by decide) (by decide)).2 [30, 30] 100⟩

/-- Positional lemma: a line with a variant that received a result under a
nonzero discount got exactly the clamped quantized price formula. -/
theorem prorationLoop_price (frac : ℕ) (totalDiscount orderTotal : ℚ)
    (hD : totalDiscount ≠ 0) (lastIdx : ℕ) :
    ∀ (rest : List OrderLine) (j : ℕ) (acc : ℚ) (i : ℕ) (l : OrderLine) (r : LineResult),
      rest[i]? = some l →
      (prorationLoop frac totalDiscount orderTotal lastIdx j acc rest)[i]? = some (some r) →
      r.priceWithDiscounts
          = max 0 (quantizeAt frac ((lineTotalPrice l - r.discountAmount) / (l.quantity : ℚ)))
        ∧ 0 ≤ r.priceWithDiscounts
  | [], _, _, i, _, _, hl, _ => by simp at hl
  | l0 :: rest, j, acc, 0, l, r, hl, hr => by
      have hll : l0 = l := by simpa using hl
      subst hll
      by_cases hv : l0.hasVariant = true
      · rw [prorationLoop, if_pos hv, if_pos hD] at hr
        simp only [List.getElem?_cons_zero, Option.some.injEq] at hr
        subst hr
        refine ⟨?_, le_max_right _ _⟩
        rw [linePriceWithDiscounts, max_comm]
      · rw [prorationLoop, if_neg hv] at hr
        simp at hr
  | l0 :: rest, j, acc, i + 1, l, r, hl, hr => by
      have hl' : rest[i]? = some l := by simpa using hl
      by_cases hv : l0.hasVariant = true
      · rw [prorationLoop, if_pos hv, if_pos hD] at hr
        simp only [List.getElem?_cons_succ] at hr
        exact prorationLoop_price frac totalDiscount orderTotal hD lastIdx rest
          (j + 1) _ i l r hl' hr
      · rw [prorationLoop, if_neg hv] at hr
        simp only [List.getElem?_cons_succ] at hr
        exact prorationLoop_price frac totalDiscount orderTotal hD lastIdx rest
          (j + 1) acc i l r hl' hr

/-- C8: for every line in the proration input that receives a result (its
variant is present) under a nonzero total discount, the final discounted
unit price equals `max(0, (lineTotalPrice - lineDiscount) / quantity)`
quantized to currency precision, and in particular is never negative, even
when the total discount exceeds the sum of line totals. -/
theorem line_price_clamped (frac : ℕ) (totalDiscount : ℚ) (lines : List OrderLine)
    (hD : totalDiscount ≠ 0) (i : ℕ) (l : OrderLine) (r : LineResult)
    (hl : lines[i]? = some l)
    (hr : (prorateOrderLines frac totalDiscount lines)[i]? = some (some r)) :
    r.priceWithDiscounts
        = max 0 (quantizeAt frac ((lineTotalPrice l - r.discountAmount) / (l.quantity : ℚ)))
      ∧ 0 ≤ r.priceWithDiscounts :=
  prorationLoop_price frac totalDiscount (orderTotalPrice lines) hD (lines.length - 1)
    lines 0 0 i l r hl hr

/-- Witness for C8 at spec scenario 4: three lines with totals 30, 30, 40
and a total discount of 200 exceeding the order total 100.  The first line
gets discount 60.00, and its discounted unit price is clamped to 0. -/
theorem line_price_clamped_witness :
    (200 : ℚ) ≠ 0 ∧
    ([⟨30, 1, true⟩, ⟨30, 1, true⟩, ⟨40, 1, true⟩] : List OrderLine)[0]?
      = some ⟨30, 1, true⟩ ∧
    (prorateOrderLines 2 200 [⟨30, 1, true⟩, ⟨30, 1, true⟩, ⟨40, 1, true⟩])[0]?
      = some (some ⟨60, 0⟩) ∧
    ((LineResult.mk 60 0).priceWithDiscounts
        = max 0 (quantizeAt 2
            ((lineTotalPrice ⟨30, 1, true⟩ - (LineResult.mk 60 0).discountAmount)
              / (((⟨30, 1, true⟩ : OrderLine).quantity : ℕ) : ℚ)))
      ∧ (0 : ℚ) ≤ (LineResult.mk 60 0).priceWithDiscounts) :=
  ⟨by norm_num, by decide, by decide,
   line_price_clamped 2 200 [⟨30, 1, true⟩, ⟨30, 1, true⟩, ⟨40, 1, true⟩]
     (by norm_num) 0 ⟨30, 1, true⟩ ⟨60, 0⟩ (by decide) (by decide)⟩

/-- Positional lemma: a line without a variant is skipped by the loop
(`continue`), leaving `none` at its position. -/
theorem prorationLoop_no_variant (frac : ℕ) (totalDiscount orderTotal : ℚ) (lastIdx : ℕ) :
    ∀ (rest : List OrderLine) (j : ℕ) (acc : ℚ) (i : ℕ) (l : OrderLine),
      rest[i]? = some l → l.hasVariant = false →
      (prorationLoop frac totalDiscount orderTotal lastIdx j acc rest)[i]? = some none
  | [], _, _, i, _, hl, _ => by simp at hl
  | l0 :: rest, j, acc, 0, l, hl, hnv => by
      have hll : l0 = l := by simpa using hl
      subst hll
      rw [prorationLoop, if_neg (by simp [hnv])]
      simp
  | l0 :: rest, j, acc, i + 1, l, hl, hnv => by
      have hl' : rest[i]? = some l := by simpa using hl
      by_cases hv : l0.hasVariant = true
      · by_cases hD : totalDiscount ≠ 0
        · rw [prorationLoop, if_pos hv, if_pos hD]
          simpa using prorationLoop_no_variant frac totalDiscount orderTotal lastIdx rest
            (j + 1) _ i l hl' hnv
        · rw [prorationLoop, if_pos hv, if_neg hD]
          simpa using prorationLoop_no_variant frac totalDiscount orderTotal lastIdx rest
            (j + 1) acc i l hl' hnv
      · rw [prorationLoop, if_neg hv]
        simpa using prorationLoop_no_variant frac totalDiscount orderTotal lastIdx rest
          (j + 1) acc i l hl' hnv

/-- Loop invariant: when the suffix ends exactly at the last index and its
final line has no variant, no line takes the remainder, so the applied sum
is just the sum of the quantized proportional shares of the variant lines
of the suffix. -/
theorem prorationLoop_sum_no_variant_last (frac : ℕ) (totalDiscount orderTotal : ℚ)
    (hD : totalDiscount ≠ 0) (lastIdx : ℕ) :
    ∀ (rest : List OrderLine) (j : ℕ) (acc : ℚ) (last : OrderLine),
      rest.getLast? = some last → last.hasVariant = false →
      j + rest.length = lastIdx + 1 →
      appliedDiscountSum (prorationLoop frac totalDiscount orderTotal lastIdx j acc rest)
        = ((rest.filter (fun l => l.hasVariant)).map
            (fun l => quantizeAt frac (lineTotalPrice l / orderTotal * totalDiscount))).sum
  | [], _, _, _, hlast, _, _ => by simp at hlast
  | [l], j, acc, last, hlast, hnv, hlen => by
      have hll : l = last := by simpa using hlast
      subst hll
      have hnv' : ¬ l.hasVariant = true := by simp [hnv]
      rw [prorationLoop, if_neg hnv']
      simp [appliedDiscountSum_cons, appliedDiscountSum_nil, prorationLoop, hnv]
  | l :: l2 :: rest, j, acc, last, hlast, hnv, hlen => by
      have hlast' : (l2 :: rest).getLast? = some last := by
        rwa [List.getLast?_cons_cons] at hlast
      have hlen' : (j + 1) + (l2 :: rest).length = lastIdx + 1 := by
        simp only [List.length_cons] at hlen ⊢
        omega
      have hj : j ≠ lastIdx := by
        simp only [List.length_cons] at hlen
        omega
      by_cases hv : l.hasVariant = true
      · rw [prorationLoop, if_pos hv, if_pos hD, appliedDiscountSum_cons,
          prorationLoop_sum_no_variant_last frac totalDiscount orderTotal hD lastIdx
            (l2 :: rest) (j + 1) _ last hlast' hnv hlen',
          lineDiscountAmount, if_neg hj]
        simp [hv]
      · rw [prorationLoop, if_neg hv, appliedDiscountSum_cons,
          prorationLoop_sum_no_variant_last frac totalDiscount orderTotal hD lastIdx
            (l2 :: rest) (j + 1) acc last hlast' hnv hlen']
        simp [hv]

/-- C10 counterexample: the claim says that when the last line has no
variant the applied per-line discounts sum to strictly less than the total
discount.  With lines of totals 9999 and 1 (the last without a variant)
and total discount 10, the first line's share `9999/10000 × 10 = 9.999`
rounds up to `10.00`, so the applied sum equals the total discount and
does not fall short. -/
theorem no_variant_last_sum_cex :
    (([⟨9999, 1, true⟩, ⟨1, 1, false⟩] : List OrderLine).getLast?).map OrderLine.hasVariant
        = some false ∧
    appliedDiscountSum (prorateOrderLines 2 10 [⟨9999, 1, true⟩, ⟨1, 1, false⟩]) = 10 ∧
    ¬ appliedDiscountSum (prorateOrderLines 2 10 [⟨9999, 1, true⟩, ⟨1, 1, false⟩]) < 10 := by
  refine ⟨by decide, by decide, by decide⟩

/-- C10 as amended: every line whose variant is absent is skipped, keeping
all its fields unchanged and contributing no per-line discount; when the
last line has no variant (and the discount is nonzero), the rounding
remainder is assigned to no line and the sum of applied per-line discounts
equals the sum of the quantized proportional shares of the variant lines —
which in general differs from the total discount (it can fall short of it,
equal it, or exceed it). -/
theorem no_variant_line_untouched :
    (∀ (frac : ℕ) (totalDiscount : ℚ) (lines : List OrderLine) (i : ℕ) (l : OrderLine),
        lines[i]? = some l → l.hasVariant = false →
        (prorateOrderLines frac totalDiscount lines)[i]? = some none) ∧
    (∀ (frac : ℕ) (totalDiscount : ℚ) (lines : List OrderLine) (last : OrderLine),
        totalDiscount ≠ 0 → lines.getLast? = some last → last.hasVariant = false →
        appliedDiscountSum (prorateOrderLines frac totalDiscount lines)
          = quantizedShareSum frac totalDiscount (orderTotalPrice lines) lines) := by
  constructor
  · intro frac totalDiscount lines i l hl hnv
    exact prorationLoop_no_variant frac totalDiscount (orderTotalPrice lines)
      (lines.length - 1) lines 0 0 i l hl hnv
  · intro frac totalDiscount lines last hD hlast hnv
    have hne : lines ≠ [] := by
      intro h
      rw [h] at hlast
      simp at hlast
    have hlen : 0 + lines.length = (lines.length - 1) + 1 := by
      have := List.length_pos.mpr hne
      omega
    rw [quantizedShareSum]
    exact prorationLoop_sum_no_variant_last frac totalDiscount (orderTotalPrice lines)
      hD (lines.length - 1) lines 0 0 last hlast hnv hlen

/-- Witness for the amended C10: lines with totals 9999 (variant) and 1
(no variant, last), discount 10.  The last line's slot is `none` and the
applied sum equals the quantized-share sum of the variant lines. -/
theorem no_variant_line_untouched_witness :
    (prorateOrderLines 2 10 [⟨9999, 1, true⟩, ⟨1, 1, false⟩])[1]? = some none ∧
    appliedDiscountSum (prorateOrderLines 2 10 [⟨9999, 1, true⟩, ⟨1, 1, false⟩])
      = quantizedShareSum 2 10
          (orderTotalPrice [⟨9999, 1, true⟩, ⟨1, 1, false⟩])
          [⟨9999, 1, true⟩, ⟨1, 1, false⟩] :=
  ⟨no_variant_line_untouched.1 2 10 [⟨9999, 1, true⟩, ⟨1, 1, false⟩] 1 ⟨1, 1, false⟩
     (by decide) (by decide),
   no_variant_line_untouched.2 2 10 [⟨9999, 1, true⟩, ⟨1, 1, false⟩] ⟨1, 1, false⟩
     (by norm_num) (by decide) (by decide)⟩

/-- C5 counterexample: the claim says the resolver returns 0 when neither
the resolved rate name nor the default rate name has an entry.  With the
non-empty table `{"custom": 5}` and a product whose resolved code is
`"vip"`, both lookups miss and the code raises (`None["value"]`, modelled
as `none`) instead of returning 0. -/
theorem get_tax_rate_cex :
    getTaxRate true [("custom", 5)] ⟨true, some "vip", ⟨none⟩⟩ 0 = none ∧
    (none : Option ℚ) ≠ some 0 := by
  refine ⟨by decide, by simp⟩

/-- C5 as amended: with the plugin active, `_get_tax_rate` returns the
previous value (0 in the tax-rate pipeline) when the product does not
charge taxes, when the rate table is empty, or when the resolved rate name
is falsy; when the table is non-empty and the resolved name hits an entry
(or, failing that, the default name does) it returns that entry's
percentage divided by 100; and when neither the resolved name nor the
default name has an entry the lookup fails (a `TypeError`, `none`) rather
than returning 0. -/
theorem get_tax_rate_spec :
    (∀ (flatTaxes : RateTable) (p : Product) (previousValue : ℚ),
        p.chargeTaxes = false →
        getTaxRate true flatTaxes p previousValue = some previousValue) ∧
    (∀ (p : Product) (previousValue : ℚ),
        getTaxRate true [] p previousValue = some previousValue) ∧
    (∀ (flatTaxes : RateTable) (p : Product) (previousValue : ℚ),
        strTruthy (resolveRateName p) = false →
        getTaxRate true flatTaxes p previousValue = some previousValue) ∧
    (∀ (flatTaxes : RateTable) (p : Product) (previousValue : ℚ) (name : String) (v : ℚ),
        p.chargeTaxes = true → resolveRateName p = some name → name ≠ "" →
        flatTaxes.lookup name = some v →
        getTaxRate true flatTaxes p previousValue = some (v / 100)) ∧
    (∀ (flatTaxes : RateTable) (p : Product) (previousValue : ℚ) (name : String) (v : ℚ),
        p.chargeTaxes = true → flatTaxes ≠ [] → resolveRateName p = some name → name ≠ "" →
        flatTaxes.lookup name = none →
        flatTaxes.lookup DEFAULT_TAX_RATE_NAME = some v →
        getTaxRate true flatTaxes p previousValue = some (v / 100)) ∧
    (∀ (flatTaxes : RateTable) (p : Product) (previousValue : ℚ) (name : String),
        p.chargeTaxes = true → flatTaxes ≠ [] → resolveRateName p = some name → name ≠ "" →
        flatTaxes.lookup name = none →
        flatTaxes.lookup DEFAULT_TAX_RATE_NAME = none →
        getTaxRate true flatTaxes p previousValue = none) := by
  refine ⟨?_, ?_, ?_, ?_, ?_, ?_⟩
  · intro flatTaxes p previousValue h
    simp [getTaxRate, skipPlugin, getTaxDataForProduct, taxesFalsy, h]
  · intro p previousValue
    by_cases h : p.chargeTaxes <;>
      simp [getTaxRate, skipPlugin, getTaxDataForProduct, taxesFalsy, h]
  · intro flatTaxes p previousValue h
    by_cases hc : p.chargeTaxes <;>
      simp [getTaxRate, skipPlugin, getTaxDataForProduct, taxesFalsy, hc, h]
  · intro flatTaxes p previousValue name v hc hres hname hlk
    have hne : flatTaxes.isEmpty = false := by
      cases flatTaxes with
      | nil => simp at hlk
      | cons a t => rfl
    simp [getTaxRate, skipPlugin, getTaxDataForProduct, taxesFalsy, hc, hres, hname,
      strTruthy, String.isEmpty_iff, hne, hlk]
  · intro flatTaxes p previousValue name v hc hneq hres hname hlk hlkd
    have hne : flatTaxes.isEmpty = false := by
      cases flatTaxes with
      | nil => exact absurd rfl hneq
      | cons a t => rfl
    simp [getTaxRate, skipPlugin, getTaxDataForProduct, taxesFalsy, hc, hres, hname,
      strTruthy, String.isEmpty_iff, hne, hlk, hlkd]
  · intro flatTaxes p previousValue name hc hneq hres hname hlk hlkd
    have hne : flatTaxes.isEmpty = false := by
      cases flatTaxes with
      | nil => exact absurd rfl hneq
      | cons a t => rfl
    simp [getTaxRate, skipPlugin, getTaxDataForProduct, taxesFalsy, hc, hres, hname,
      strTruthy, String.isEmpty_iff, hne, hlk, hlkd]

/-- Witness for the amended C5: with table `{"standard": 10}`, a product
that does not charge taxes resolves to the previous value 0; a charging
product with no metadata resolves to the default entry `10/100`; with
table `{"custom": 5}` and resolved code `"vip"`, the resolver fails. -/
theorem get_tax_rate_spec_witness :
    getTaxRate true [("standard", 10)] ⟨false, none, ⟨none⟩⟩ 0 = some 0 ∧
    getTaxRate true [("standard", 10)] ⟨true, none, ⟨none⟩⟩ 0 = some (10 / 100) ∧
    getTaxRate true [("custom", 5)] ⟨true, some "vip", ⟨none⟩⟩ 0 = none :=
  ⟨get_tax_rate_spec.1 [("standard", 10)] ⟨false, none, ⟨none⟩⟩ 0 rfl,
   get_tax_rate_spec.2.2.2.1 [("standard", 10)] ⟨true, none, ⟨none⟩⟩ 0 "standard" 10
     rfl (by decide) (by decide) (by decide),
   get_tax_rate_spec.2.2.2.2.2 [("custom", 5)] ⟨true, some "vip", ⟨none⟩⟩ 0 "vip"
     rfl (by decide) (by decide) (by decide) (by decide) (by decide)⟩

/-- C6: for every non-empty rate table and non-empty rate name,
`apply_tax_to_price` applies the entry for that rate name when present;
when the name is absent it applies the default rate name's entry; and when
the default entry is also missing the call fails (`KeyError`, modelled as
`none`) rather than silently applying a 0% tax. -/
theorem apply_tax_lookup_spec (taxes : RateTable) (name : String) (base : PriceBase)
    (keepGross : Bool) (hne : taxes ≠ []) (hname : name ≠ "") :
    (∀ v : ℚ, taxes.lookup name = some v →
        apply_tax_to_price keepGross (some taxes) (some name) base
          = some (flat_tax base (v / 100) keepGross)) ∧
    (∀ v : ℚ, taxes.lookup name = none → taxes.lookup DEFAULT_TAX_RATE_NAME = some v →
        apply_tax_to_price keepGross (some taxes) (some name) base
          = some (flat_tax base (v / 100) keepGross)) ∧
    (taxes.lookup name = none → taxes.lookup DEFAULT_TAX_RATE_NAME = none →
        apply_tax_to_price keepGross (some taxes) (some name) base = none) := by
  have hempty : taxes.isEmpty = false := by
    cases taxes with
    | nil => exact absurd rfl hne
    | cons a t => rfl
  refine ⟨?_, ?_, ?_⟩
  · intro v hv
    rw [apply_tax_to_price]
    simp [taxesFalsy, strTruthy, String.isEmpty_iff, hempty, hname, hv]
  · intro v hv hvd
    rw [apply_tax_to_price]
    simp [taxesFalsy, strTruthy, String.isEmpty_iff, hempty, hname, hv, hvd]
  · intro hv hvd
    rw [apply_tax_to_price]
    simp [taxesFalsy, strTruthy, String.isEmpty_iff, hempty, hname, hv, hvd]

/-- Witness for C6: with table `{"standard": 10, "custom": 23}`, the name
`"custom"` uses its own entry (23%) and the absent name `"vip"` falls back
to `"standard"` (10%); with table `{"custom": 23}` the absent name
`"vip"` has no default to fall back to and the call fails. -/
theorem apply_tax_lookup_spec_witness :
    apply_tax_to_price false (some [("standard", 10), ("custom", 23)]) (some "custom")
        (.money ⟨100, "USD"⟩)
      = some (flat_tax (.money ⟨100, "USD"⟩) ((23 : ℚ) / 100) false) ∧
    apply_tax_to_price false (some [("standard", 10), ("custom", 23)]) (some "vip")
        (.money ⟨100, "USD"⟩)
      = some (flat_tax (.money ⟨100, "USD"⟩) ((10 : ℚ) / 100) false) ∧
    apply_tax_to_price false (some [("custom", 23)]) (some "vip")
        (.money ⟨100, "USD"⟩) = none :=
  ⟨(apply_tax_lookup_spec [("standard", 10), ("custom", 23)] "custom"
      (.money ⟨100, "USD"⟩) false (by decide) (by decide)).1 23 (by decide),
   (apply_tax_lookup_spec [("standard", 10), ("custom", 23)] "vip"
      (.money ⟨100, "USD"⟩) false (by decide) (by decide)).2.1 10 (by decide) (by decide),
   (apply_tax_lookup_spec [("custom", 23)] "vip"
      (.money ⟨100, "USD"⟩) false (by decide) (by decide)).2.2 (by decide) (by decide)⟩

end FlatTax
